import Mathlib

/-!
Verification of the interactive terminal list controller of
`vercel-enhanced-cli` against its natural-language specification.

The development shallowly embeds the relevant source modules:

* `src/utils/cache.ts` (the unnamed source file implementing the TTL cache):
  `getCached`, `setCache`, with JavaScript `Map` semantics modelled by an
  insertion-ordered association list and `Date.now()` passed explicitly.
* `src/ui/renderProjects.ts` / `src/ui/prompts.ts`: `formatRelativeTime`,
  with JavaScript real division plus `Math.floor` modelled by `Int.fdiv`.
* `src/ui/prompts.ts`, `promptProjectsWithDynamicUpdates`: the controller
  closure state, `filterProjects`, `applySearchFilter`, `updateProjects`
  and the raw-input handler `handleData`, byte for byte along the source's
  control flow.  JavaScript strings scanned character-wise are modelled as
  `List Char`; JS string truthiness (`""`/`null` falsy) is modelled
  explicitly.  Purely visual side effects (`render`, prefetch scheduling,
  URL opening) mutate no controller state and are omitted; `getCached`
  reads performed synchronously inside the handler are supplied by a
  snapshot function in the configuration.
-/

/-- JavaScript strings scanned character by character. -/
abbrev Str := List Char

/-- ASCII lower-casing of one character (model of `String.prototype.toLowerCase`
on the ASCII inputs the controller deals with). -/
def lowerC (c : Char) : Char :=
  if 'A' ≤ c ∧ c ≤ 'Z' then Char.ofNat (c.toNat + 32) else c

/-- `s.toLowerCase()` on ASCII data. -/
def lowerS (s : Str) : Str := s.map lowerC

/-- Whitespace stripped by `String.prototype.trim` (ASCII part). -/
def isWsC (c : Char) : Bool :=
  c = ' ' ∨ c = '\t' ∨ c = '\n' ∨ c = '\r'

/-- `s.trim()` on ASCII data. -/
def trimS (s : Str) : Str :=
  ((s.dropWhile isWsC).reverse.dropWhile isWsC).reverse

/-- Does `l` start with `p`?  (Model of `String.prototype.startsWith`.) -/
def startsW : Str → Str → Bool
  | _, [] => true
  | [], _ :: _ => false
  | a :: as, b :: bs => a = b && startsW as bs

/-- `hay.includes(pat)`: substring test, model of `String.prototype.includes`. -/
def containsSub (hay pat : Str) : Bool :=
  match hay with
  | [] => pat.isEmpty
  | _ :: t => startsW hay pat || containsSub t pat

/-- JS string truthiness: `null`/`undefined`/`""` are falsy. -/
def jsStr? : Option Str → Option Str
  | some s => if s = [] then none else some s
  | none => none

/-! ## The TTL cache (`src/utils/cache.ts`) -/

/-- `CacheEntry<T>` from `cache.ts`. -/
structure CacheEntry (α : Type) where
  data : α
  expiresAt : Int
deriving DecidableEq, Repr

/-- The backing `Map<string, CacheEntry<unknown>>`, as an insertion-ordered
association list with unique keys (JS `Map` semantics). -/
abbrev CacheMap (α : Type) := List (String × CacheEntry α)

/-- `DEFAULT_TTL` (5 minutes, in milliseconds). -/
def DEFAULT_TTL : Int := 300000

/-- `Map.prototype.get`. -/
def mapGet {α} : CacheMap α → String → Option (CacheEntry α)
  | [], _ => none
  | (k', e') :: rest, k => if k' = k then some e' else mapGet rest k

/-- `Map.prototype.set`: replace in place if the key exists, else append. -/
def mapSet {α} : CacheMap α → String → CacheEntry α → CacheMap α
  | [], k, e => [(k, e)]
  | (k', e') :: rest, k, e =>
    if k' = k then (k, e) :: rest else (k', e') :: mapSet rest k e

/-- `Map.prototype.delete`. -/
def mapDelete {α} (c : CacheMap α) (k : String) : CacheMap α :=
  c.filter (fun p => p.1 ≠ k)

/-- `getCached` from `cache.ts`.  `now` stands for `Date.now()` at the call.
Returns the read result together with the cache after the lazy eviction the
read may perform. -/
def getCached {α} (now : Int) (c : CacheMap α) (key : String) :
    Option α × CacheMap α :=
  match mapGet c key with
  | none => (none, c)
  | some entry =>
    if now > entry.expiresAt then (none, mapDelete c key)
    else (some entry.data, c)

/-- `setCache` from `cache.ts` (`ttlMs` is the explicit argument; the source
default is `DEFAULT_TTL`). -/
def setCache {α} (now : Int) (c : CacheMap α) (key : String) (data : α)
    (ttlMs : Int) : CacheMap α :=
  mapSet c key ⟨data, now + ttlMs⟩

theorem mapGet_mapSet_self {α} (c : CacheMap α) (k : String) (e : CacheEntry α) :
    mapGet (mapSet c k e) k = some e := by
  induction c with
  | nil => simp [mapSet, mapGet]
  | cons p rest ih =>
    obtain ⟨k', e'⟩ := p
    by_cases h : k' = k <;> simp [mapSet, mapGet, h, ih]

theorem mapGet_mapDelete_self {α} (c : CacheMap α) (k : String) :
    mapGet (mapDelete c k) k = none := by
  induction c with
  | nil => simp [mapDelete, mapGet]
  | cons p rest ih =>
    obtain ⟨k', e'⟩ := p
    by_cases h : k' = k
    · simpa [mapDelete, h] using ih
    · simpa [mapDelete, mapGet, h] using ih

/-! ## `formatRelativeTime` (`src/ui/renderProjects.ts`, duplicated in
`src/ui/prompts.ts`) -/

/-- `formatRelativeTime` from the source.  `Math.floor` of JS real division
by a positive constant is `Int.fdiv`. -/
def formatRelativeTime (now timestamp : Int) : String :=
  let diff := now - timestamp
  let seconds := Int.fdiv diff 1000
  let minutes := Int.fdiv seconds 60
  let hours := Int.fdiv minutes 60
  let days := Int.fdiv hours 24
  let weeks := Int.fdiv days 7
  let months := Int.fdiv days 30
  let years := Int.fdiv days 365
  if years > 0 then toString years ++ "y ago"
  else if months > 0 then toString months ++ "mo ago"
  else if weeks > 0 then toString weeks ++ "w ago"
  else if days > 0 then toString days ++ "d ago"
  else if hours > 0 then toString hours ++ "h ago"
  else if minutes > 0 then toString minutes ++ "m ago"
  else "just now"

/-- Spec-side relative-time bucketing, written from the spec's words with the
unit selection amended to "largest non-zero unit wins": direct integer
division of the elapsed seconds at the fixed thresholds 31536000 (years),
2592000 (months), 604800 (weeks), 86400 (days), 3600 (hours), 60 (minutes),
ties rounding down, "just now" under 60 seconds. -/
def bucketRelativeTime (diffMs : Nat) : String :=
  let s := diffMs / 1000
  if 31536000 ≤ s then toString (s / 31536000) ++ "y ago"
  else if 2592000 ≤ s then toString (s / 2592000) ++ "mo ago"
  else if 604800 ≤ s then toString (s / 604800) ++ "w ago"
  else if 86400 ≤ s then toString (s / 86400) ++ "d ago"
  else if 3600 ≤ s then toString (s / 3600) ++ "h ago"
  else if 60 ≤ s then toString (s / 60) ++ "m ago"
  else "just now"

theorem fdiv_natCast (a b : Nat) : Int.fdiv (a : Int) (b : Int) = ((a / b : Nat) : Int) :=
  (Int.ofNat_fdiv a b).symm

theorem toString_intCast (n : Nat) : toString ((n : Nat) : Int) = toString n := rfl

set_option maxHeartbeats 1600000 in
theorem formatRelativeTime_eq_buckets_aux (now ts : Int) (h : ts ≤ now) :
    formatRelativeTime now ts = bucketRelativeTime (now - ts).toNat := by
  obtain ⟨d, hd⟩ : ∃ d : Nat, now - ts = (d : Int) :=
    ⟨(now - ts).toNat, (Int.toNat_of_nonneg (by omega)).symm⟩
  have e1 : Int.fdiv (d : Int) 1000 = ((d / 1000 : Nat) : Int) := by
    simpa using fdiv_natCast d 1000
  have e2 : Int.fdiv ((d / 1000 : Nat) : Int) 60 = ((d / 1000 / 60 : Nat) : Int) := by
    simpa using fdiv_natCast (d / 1000) 60
  have e3 : Int.fdiv ((d / 1000 / 60 : Nat) : Int) 60 =
      ((d / 1000 / 60 / 60 : Nat) : Int) := by
    simpa using fdiv_natCast (d / 1000 / 60) 60
  have e4 : Int.fdiv ((d / 1000 / 60 / 60 : Nat) : Int) 24 =
      ((d / 1000 / 60 / 60 / 24 : Nat) : Int) := by
    simpa using fdiv_natCast (d / 1000 / 60 / 60) 24
  have e5 : Int.fdiv ((d / 1000 / 60 / 60 / 24 : Nat) : Int) 7 =
      ((d / 1000 / 60 / 60 / 24 / 7 : Nat) : Int) := by
    simpa using fdiv_natCast (d / 1000 / 60 / 60 / 24) 7
  have e6 : Int.fdiv ((d / 1000 / 60 / 60 / 24 : Nat) : Int) 30 =
      ((d / 1000 / 60 / 60 / 24 / 30 : Nat) : Int) := by
    simpa using fdiv_natCast (d / 1000 / 60 / 60 / 24) 30
  have e7 : Int.fdiv ((d / 1000 / 60 / 60 / 24 : Nat) : Int) 365 =
      ((d / 1000 / 60 / 60 / 24 / 365 : Nat) : Int) := by
    simpa using fdiv_natCast (d / 1000 / 60 / 60 / 24) 365
  simp only [formatRelativeTime]
  rw [hd, e1, e2, e3, e4, e7, e6, e5]
  simp only [bucketRelativeTime, hd, Int.toNat_natCast, gt_iff_lt,
    Int.natCast_pos, toString_intCast]
  have q1 : d / 1000 / 60 / 60 / 24 / 365 = d / 1000 / 31536000 := by
    simp [Nat.div_div_eq_div_mul]
  have q2 : d / 1000 / 60 / 60 / 24 / 30 = d / 1000 / 2592000 := by
    simp [Nat.div_div_eq_div_mul]
  have q3 : d / 1000 / 60 / 60 / 24 / 7 = d / 1000 / 604800 := by
    simp [Nat.div_div_eq_div_mul]
  have q4 : d / 1000 / 60 / 60 / 24 = d / 1000 / 86400 := by
    simp [Nat.div_div_eq_div_mul]
  have q5 : d / 1000 / 60 / 60 = d / 1000 / 3600 := by
    simp [Nat.div_div_eq_div_mul]
  rw [q1, q2, q3, q4, q5]
  split_ifs <;> first | rfl | omega

/-- C7 counterexample: at a difference of exactly 8 days (691200000 ms) the
source formats "1w ago" (largest non-zero unit wins), not "8d ago" as the
claim's "smallest applicable non-zero unit" example predicts. -/
theorem formatRelativeTime_eight_days_counter :
    formatRelativeTime 691200000 0 = "1w ago" ∧
    formatRelativeTime 691200000 0 ≠ "8d ago" := by
  constructor
  · rfl
  · decide

/-- C7 (amended): relative-time formatting buckets by integer division of the
elapsed milliseconds' seconds at the fixed thresholds 60s / 3600s / 86400s /
604800s / 2592000s / 31536000s, ties rounding down, "just now" under 60s, and
the LARGEST applicable non-zero unit winning (not the smallest). -/
theorem formatRelativeTime_eq_buckets (now ts : Int) (h : ts ≤ now) :
    formatRelativeTime now ts = bucketRelativeTime (now - ts).toNat :=
  formatRelativeTime_eq_buckets_aux now ts h

theorem formatRelativeTime_eq_buckets_witness :
    (0 : Int) ≤ 125000 ∧
    formatRelativeTime 125000 0 = bucketRelativeTime ((125000 : Int) - 0).toNat :=
  ⟨by decide, formatRelativeTime_eq_buckets 125000 0 (by decide)⟩

/-- C5: cache TTL semantics.  `set(k, v, ttl)` at time `t0`; a read strictly
less than `ttl` later returns `v`; a read strictly more than `ttl` later
returns not-found and evicts the entry on that read, so any later read of the
returned cache (before any new set) also returns not-found. -/
theorem cache_ttl_read {α} (c : CacheMap α) (k : String) (v : α)
    (t0 ttl e1 e2 : Int) (ht : 0 < ttl) (h1 : e1 < ttl) (h2 : ttl < e2) :
    (getCached (t0 + e1) (setCache t0 c k v ttl) k).1 = some v ∧
    (getCached (t0 + e2) (setCache t0 c k v ttl) k).1 = none ∧
    mapGet (getCached (t0 + e2) (setCache t0 c k v ttl) k).2 k = none ∧
    ∀ t2 : Int, (getCached t2 (getCached (t0 + e2) (setCache t0 c k v ttl) k).2 k).1 = none := by
  have hget : mapGet (setCache t0 c k v ttl) k = some ⟨v, t0 + ttl⟩ :=
    mapGet_mapSet_self c k ⟨v, t0 + ttl⟩
  have hlive : ¬ (t0 + e1 > t0 + ttl) := by omega
  have hdead : t0 + e2 > t0 + ttl := by omega
  refine ⟨?_, ?_, ?_, ?_⟩
  · simp [getCached, hget, hlive]
  · simp [getCached, hget, hdead]
  · simp [getCached, hget, hdead, mapGet_mapDelete_self]
  · intro t2
    simp [getCached, hget, hdead, mapGet_mapDelete_self]

theorem cache_ttl_read_witness :
    (getCached (1000 + 0) (setCache 1000 ([] : CacheMap Nat) "k" 42 100) "k").1 = some 42 ∧
    (getCached (1000 + 150) (setCache 1000 ([] : CacheMap Nat) "k" 42 100) "k").1 = none ∧
    mapGet (getCached (1000 + 150) (setCache 1000 ([] : CacheMap Nat) "k" 42 100) "k").2 "k" = none ∧
    (getCached 99999 (getCached (1000 + 150) (setCache 1000 ([] : CacheMap Nat) "k" 42 100) "k").2 "k").1 = none := by
  have h := cache_ttl_read ([] : CacheMap Nat) "k" 42 1000 100 0 150
    (by decide) (by decide) (by decide)
  exact ⟨h.1, h.2.1, h.2.2.1, h.2.2.2 99999⟩

/-! ## The interactive list controller (`src/ui/prompts.ts`,
`promptProjectsWithDynamicUpdates`) -/

/-- Deployment creator (`creator?{username,email,uid}`, accessed with optional
chaining in the source). -/
structure Creator where
  username : Option Str
  email : Option Str
  uid : Option Str
deriving DecidableEq, Repr

/-- The part of `VercelDeployment` the controller reads.  `state` is optional
because the source guards it with `project.lastDeployment?.state` truthiness. -/
structure Deployment where
  state : Option Str
  creator : Option Creator
  createdAt : Int
deriving DecidableEq, Repr

/-- The part of `ProjectWithMetadata` the controller reads. -/
structure ProjectMeta where
  id : Str
  name : Str
  lastDeployment : Option Deployment
deriving DecidableEq, Repr

/-- `ProjectOption` from `prompts.ts`. -/
structure ProjectOption where
  name : Str
  value : Str
  description : Option Str
deriving DecidableEq, Repr

/-- `DetailViewData` from `prompts.ts`; `domains` keeps only the names the
controller displays. -/
structure DetailViewData where
  domains : List Str
  commitMessage : Option Str
  loading : Bool
deriving DecidableEq, Repr

/-- The closure-captured parameters of `promptProjectsWithDynamicUpdates`.
`cachedDetail pid` is the synchronous `getCached(CACHE_KEY_DETAIL_VIEW + pid)`
snapshot read inside the right-arrow handler; `hasFetchDetailData` is the
presence of the optional `fetchDetailData` callback. -/
structure Config where
  initialProjects : List ProjectOption
  pageSize : Int
  allProjects : List ProjectMeta
  formatProject : ProjectMeta → Str
  wasRawMode : Bool
  scopeSlug : Option Str
  hasFetchDetailData : Bool
  cachedDetail : Str → Option (List Str × Option Str)

/-- The mutable closure variables of `promptProjectsWithDynamicUpdates`.
`selected` models the insertion-ordered JS `Set<string>`. -/
structure CtrlState where
  projects : List ProjectOption
  selected : List Str
  cursorIndex : Int
  startIndex : Int
  escapeSequence : Str
  searchQuery : Str
  isDetailViewActive : Bool
  detailViewActionIndex : Int
  detailViewData : Option DetailViewData
  detailViewProjectId : Option Str
  isSettingsMenuActive : Bool
deriving DecidableEq, Repr

/-- The action component of the resolved result; `noAction` is the source's
`null`. -/
inductive ActionKind where
  | openProject | openSettings | openDeployments | openLogs
  | deleteAct | changeTeam | refreshAct | noAction
deriving DecidableEq, Repr

/-- A resolution of the controller promise.  `rawModeSetTo` records the
argument of the `setRawMode` call performed on that exit path
(`wasRawMode || false` in the source). -/
structure Resolution where
  projectIds : List Str
  action : ActionKind
  rawModeSetTo : Bool
deriving DecidableEq, Repr

/-- The initial closure state of one invocation. -/
def initState (cfg : Config) : CtrlState :=
  { projects := cfg.initialProjects
    selected := []
    cursorIndex := 0
    startIndex := 0
    escapeSequence := []
    searchQuery := []
    isDetailViewActive := false
    detailViewActionIndex := 0
    detailViewData := none
    detailViewProjectId := none
    isSettingsMenuActive := false }

/-- JS `array[i]` (in-range access; the source only indexes under bounds
guards — a negative index would be a runtime `TypeError` in JS and is
modelled as `none`). -/
def getAt {α} (l : List α) (i : Int) : Option α :=
  if i < 0 then none else l.get? i.toNat

/-- JS `Array.prototype.findIndex` on `value`: first index or `-1`. -/
def findIdxJs : List ProjectOption → Str → Int
  | [], _ => -1
  | p :: rest, v =>
    if p.value = v then 0
    else
      let r := findIdxJs rest v
      if r = -1 then -1 else r + 1

/-- `Set.prototype.has`, on the model of the selection set. -/
def selHas (sel : List Str) (v : Str) : Bool := sel.any (fun x => x = v)

/-- The `if has then delete else add` selection toggle used by the Enter and
Ctrl+A handlers. -/
def toggleSel (sel : List Str) (v : Str) : List Str :=
  if selHas sel v then sel.filter (fun x => ¬ (x = v)) else sel ++ [v]

/-- The creator display string of `filterProjects`:
`creator.username?.toLowerCase() || creator.email?.toLowerCase() ||
creator.uid?.toLowerCase() || ""`. -/
def creatorNameOf (c : Creator) : Str :=
  match jsStr? (c.username.map lowerS) with
  | some u => u
  | none =>
    match jsStr? (c.email.map lowerS) with
    | some e => e
    | none =>
      match jsStr? (c.uid.map lowerS) with
      | some x => x
      | none => []

/-- The filter predicate inside `filterProjects` (lines 1098-1124 of
`prompts.ts`): name substring match, deployment-state substring match (with
"never" for a missing/empty state), creator substring match. -/
def projectMatches (searchTerm : Str) (project : ProjectMeta) : Bool :=
  let nameMatch := containsSub (lowerS project.name) searchTerm
  let stateMatch :=
    match project.lastDeployment with
    | some d =>
      match jsStr? d.state with
      | some st => containsSub (lowerS st) searchTerm
      | none => containsSub ("never".toList) searchTerm
    | none => containsSub ("never".toList) searchTerm
  let creatorMatch :=
    match project.lastDeployment with
    | some d =>
      match d.creator with
      | some c => containsSub (creatorNameOf c) searchTerm
      | none => false
    | none => false
  nameMatch || stateMatch || creatorMatch

/-- `filterProjects` from `prompts.ts` (lines 1092-1132). -/
def filterProjects (cfg : Config) (query : Str) : List ProjectOption :=
  if trimS query = [] ∨ cfg.allProjects.length = 0 then cfg.initialProjects
  else
    let searchTerm := trimS (lowerS query)
    let filtered := cfg.allProjects.filter (projectMatches searchTerm)
    filtered.map (fun project =>
      { name := cfg.formatProject project
        value := project.id
        description := some project.name })

/-- The `currentProjectId` computation shared verbatim by `applySearchFilter`
and `updateProjects`:
`projects.length > 0 && cursorIndex < projects.length ? projects[cursorIndex].value : null`. -/
def currentProjectIdOf (s : CtrlState) : Option Str :=
  if s.projects.length > 0 ∧ s.cursorIndex < (s.projects.length : Int) then
    (getAt s.projects s.cursorIndex).map (fun p => p.value)
  else none

/-- The cursor restoration of `applySearchFilter`
(`if (currentProjectId && projects.length > 0) { findIndex... } else 0`). -/
def filterCursor (s : CtrlState) (projects' : List ProjectOption) : Int :=
  match jsStr? (currentProjectIdOf s) with
  | some pid =>
    if projects'.length > 0 then
      let newIndex := findIdxJs projects' pid
      if newIndex ≠ -1 then newIndex else 0
    else 0
  | none => 0

/-- `applySearchFilter` from `prompts.ts` (lines 1182-1214): recompute the
filtered list, restore the cursor to the previously focused project id (or
reset it to the top), and reset the pagination window to 0.  `render` and
`prefetchVisibleProjects` are display/cache side effects with no controller
state change. -/
def applySearchFilter (cfg : Config) (s : CtrlState) : CtrlState :=
  let filtered := filterProjects cfg s.searchQuery
  { s with projects := filtered,
           cursorIndex := filterCursor s filtered,
           startIndex := 0 }

/-- The cursor restoration of `updateProjects` (`findIndex`, clamping to
`min(cursorIndex, projects.length - 1)` when the id is gone or was `null`). -/
def updateCursor (s : CtrlState) (projects' : List ProjectOption) : Int :=
  match jsStr? (currentProjectIdOf s) with
  | some pid =>
    let newIndex := findIdxJs projects' pid
    if newIndex ≠ -1 then newIndex
    else min s.cursorIndex ((projects'.length : Int) - 1)
  | none => min s.cursorIndex ((projects'.length : Int) - 1)

/-- The page-window scroll at the end of `updateProjects` (keep the cursor
inside the visible page). -/
def updateStart (pageSize startIndex cursor' : Int) : Int :=
  if cursor' < startIndex then max 0 cursor'
  else if cursor' ≥ startIndex + pageSize then max 0 (cursor' - pageSize + 1)
  else startIndex

/-- `updateProjects` from `prompts.ts` (lines 1135-1177): the externally
registered background-update callback.  Ignored outright while a search
filter is active; otherwise replaces the list, restores the cursor by project
id (clamping if the id is gone), and scrolls the page window so the cursor
stays visible. -/
def updateProjects (cfg : Config) (s : CtrlState) (newProjects : List ProjectOption) :
    CtrlState :=
  if s.searchQuery ≠ [] then s
  else
    { s with projects := newProjects,
             cursorIndex := updateCursor s newProjects,
             startIndex := updateStart cfg.pageSize s.startIndex (updateCursor s newProjects) }

/-- Clearing-the-search effect shared by the left-arrow and ESC handlers. -/
def clearSearch (cfg : Config) (s : CtrlState) : CtrlState :=
  { s with searchQuery := [], projects := cfg.initialProjects,
           cursorIndex := 0, startIndex := 0 }

/-- Leaving the detail view (left-arrow / ESC handlers). -/
def exitDetail (s : CtrlState) : CtrlState :=
  { s with isDetailViewActive := false, detailViewData := none,
           detailViewProjectId := none, detailViewActionIndex := 0 }

/-- Outcome of the escape-sequence reassembly block at the top of
`handleData`: either an early `return` with a step result, or fall-through
with the (possibly reset) `escapeSequence`. -/
inductive EscOut where
  | ret (out : CtrlState × Option Resolution)
  | cont (s : CtrlState)

/-- The right-arrow handler body (enter detail view, lines 1300-1354),
including the synchronous cache probe; the asynchronous `fetchDetailData`
completion is a separate later event and leaves the handler with
`loading = true`. -/
def enterDetail (cfg : Config) (s : CtrlState) : CtrlState :=
  if s.isDetailViewActive = false ∧ s.isSettingsMenuActive = false ∧
      s.projects.length > 0 ∧ s.cursorIndex < (s.projects.length : Int) then
    match getAt s.projects s.cursorIndex with
    | some proj =>
      let pid := proj.value
      let s1 := { s with isDetailViewActive := true,
                         detailViewProjectId := some pid,
                         detailViewActionIndex := 0,
                         detailViewData := some ⟨[], none, true⟩ }
      match cfg.cachedDetail pid with
      | some (doms, cm) => { s1 with detailViewData := some ⟨doms, cm, false⟩ }
      | none =>
        if cfg.hasFetchDetailData then s1
        else { s1 with detailViewData := some ⟨[], none, false⟩ }
    | none => s
  else s

/-- Reset of the reassembly buffer (`escapeSequence = ""`). -/
def clearEsc (s : CtrlState) : CtrlState := { s with escapeSequence := [] }

/-- Buffer an incomplete escape sequence (`escapeSequence = fullData`). -/
def bufferEsc (s : CtrlState) (fd : Str) : CtrlState := { s with escapeSequence := fd }

/-- The LEFT-ARROW handler body (back out of the detail view, else clear the
search filter; the reassembly buffer is already cleared). -/
def leftArrowEffect (cfg : Config) (s : CtrlState) : CtrlState :=
  if s.isDetailViewActive then exitDetail s
  else if s.isSettingsMenuActive = false ∧ s.searchQuery ≠ [] then clearSearch cfg s
  else s

/-- The Home-key handler body: page back, cursor to the end of the window. -/
def homeKeyEffect (cfg : Config) (s : CtrlState) : CtrlState :=
  let start' : Int := max 0 (s.startIndex - cfg.pageSize)
  let cursor' : Int := min (start' + cfg.pageSize - 1) ((s.projects.length : Int) - 1)
  { s with startIndex := start', cursorIndex := cursor' }

/-- The End-key handler body: page forward, cursor to the end of the window. -/
def endKeyEffect (cfg : Config) (s : CtrlState) : CtrlState :=
  let start' : Int := min ((s.projects.length : Int) - cfg.pageSize) (s.startIndex + cfg.pageSize)
  let cursor' : Int := min (start' + cfg.pageSize - 1) ((s.projects.length : Int) - 1)
  { s with startIndex := start', cursorIndex := cursor' }

/-- The UP-arrow handler body. -/
def upArrowEffect (cfg : Config) (s : CtrlState) : CtrlState :=
  let cursor' : Int := max 0 (s.cursorIndex - 1)
  let start' : Int :=
    if cursor' < s.startIndex then max 0 (s.startIndex - cfg.pageSize)
    else s.startIndex
  { s with cursorIndex := cursor', startIndex := start' }

/-- The DOWN-arrow handler body. -/
def downArrowEffect (cfg : Config) (s : CtrlState) : CtrlState :=
  let cursor' : Int := min ((s.projects.length : Int) - 1) (s.cursorIndex + 1)
  let start' : Int :=
    if cursor' ≥ s.startIndex + cfg.pageSize then
      min ((s.projects.length : Int) - cfg.pageSize) (s.startIndex + cfg.pageSize)
    else s.startIndex
  { s with cursorIndex := cursor', startIndex := start' }

/-- The escape-sequence reassembly block of `handleData`
(lines 1266-1457 of `prompts.ts`), condition for condition. -/
def escBlock (cfg : Config) (s : CtrlState) (fd : Str) : EscOut :=
  if (fd.length ≥ 3 ∧ fd.get? 0 = some '\x1b' ∧ fd.get? 1 = some '[') then
    -- LEFT ARROW: back out of detail view or clear the search filter
    if fd.get? 2 = some 'D' then .ret (leftArrowEffect cfg (clearEsc s), none)
    -- RIGHT ARROW: enter detail view
    else if fd.get? 2 = some 'C' then .ret (enterDetail cfg (clearEsc s), none)
    -- ignore other arrow keys in menus / detail view
    else if s.isDetailViewActive ∨ s.isSettingsMenuActive then
      .ret (clearEsc s, none)
    -- Home: page back
    else if (fd.length ≥ 3 ∧ fd.get? 2 = some 'H') ∨
        (fd.length ≥ 5 ∧ fd.get? 2 = some '1' ∧ fd.get? 3 = some '~') then
      .ret (homeKeyEffect cfg (clearEsc s), none)
    -- End: page forward
    else if (fd.length ≥ 3 ∧ fd.get? 2 = some 'F') ∨
        (fd.length ≥ 5 ∧ fd.get? 2 = some '4' ∧ fd.get? 3 = some '~') then
      .ret (endKeyEffect cfg (clearEsc s), none)
    -- UP arrow
    else if fd.length ≥ 3 ∧ fd.get? 2 = some 'A' then
      .ret (upArrowEffect cfg (clearEsc s), none)
    -- DOWN arrow
    else if fd.length ≥ 3 ∧ fd.get? 2 = some 'B' then
      .ret (downArrowEffect cfg (clearEsc s), none)
    -- (dead in the source: the outer guard already forces length ≥ 3)
    else if fd.length = 2 then .ret (bufferEsc s fd, none)
    -- possibly building a Home/End sequence
    else if fd.length ≥ 3 ∧ fd.length < 5 then
      if fd.get? 2 = some '1' ∨ fd.get? 2 = some '4' then
        .ret (bufferEsc s fd, none)
      else .cont (clearEsc s)
    else .cont (clearEsc s)
  else if fd.length = 1 ∧ fd.get? 0 = some '\x1b' then
    .ret (bufferEsc s fd, none)
  else if s.escapeSequence.length > 0 then .cont (clearEsc s)
  else .cont s

/-- `data.length === 1 && 32 <= data.charCodeAt(0) && data.charCodeAt(0) <= 126`:
a single printable ASCII character. -/
def isPrintableChunk : Str → Bool
  | [c] => decide (32 ≤ c.toNat) && decide (c.toNat ≤ 126)
  | _ => false

/-- The rest of `handleData` after the reassembly block (lines 1459-1684).
`s` carries the already-updated `escapeSequence`; `fd` is the `fullData`
constant computed at the top of the handler (used by the shift-tab check). -/
def afterEsc (cfg : Config) (s : CtrlState) (data fd : Str) :
    CtrlState × Option Resolution :=
  -- Ctrl+C: resolve {[], null}, restoring the prior raw-mode setting
  if data = ['\x03'] then
    (s, some ⟨[], .noAction, cfg.wasRawMode || false⟩)
  -- settings menu mode (always returns)
  else if s.isSettingsMenuActive then
    if data = ['\x1b'] then ({ s with isSettingsMenuActive := false }, none)
    else if data = ['1'] then (s, some ⟨[], .changeTeam, cfg.wasRawMode || false⟩)
    else (s, none)
  -- Ctrl+R: resolve refresh (the cache-prefix invalidation is a cache
  -- side effect outside the controller state)
  else if data = ['\x12'] ∧ s.isDetailViewActive = false ∧
      s.isSettingsMenuActive = false then
    (s, some ⟨[], .refreshAct, cfg.wasRawMode || false⟩)
  -- Ctrl+S: open settings menu
  else if data = ['\x13'] ∧ s.isDetailViewActive = false then
    ({ s with isSettingsMenuActive := true }, none)
  -- ESC: leave detail view / clear search; otherwise FALLS THROUGH
  else if data = ['\x1b'] ∧ s.escapeSequence = [] ∧ s.isDetailViewActive then
    (exitDetail s, none)
  else if data = ['\x1b'] ∧ s.escapeSequence = [] ∧
      s.isSettingsMenuActive = false ∧ s.searchQuery ≠ [] then
    (clearSearch cfg s, none)
  -- Ctrl+D: resolve delete with the selected ids
  else if data = ['\x04'] ∧ s.selected ≠ [] then
    (s, some ⟨s.selected, .deleteAct, cfg.wasRawMode || false⟩)
  -- detail view mode (always returns)
  else if s.isDetailViewActive then
    if data = ['\x1b'] ∧ s.escapeSequence = [] then (exitDetail s, none)
    else if data = ['\x09'] then
      ({ s with detailViewActionIndex := (s.detailViewActionIndex + 1) % 4 }, none)
    else if fd = ['\x1b', '[', 'Z'] then
      ({ s with escapeSequence := [],
                detailViewActionIndex := (s.detailViewActionIndex - 1 + 4) % 4 }, none)
    else if data = ['\x0d'] ∨ data = ['\x0a'] then
      -- fire-and-forget URL open; stays in detail view, no state change
      (s, none)
    else (s, none)
  -- ENTER: toggle the cursor item's selection
  else if data = ['\x0d'] ∨ data = ['\x0a'] then
    if s.projects.length > 0 ∧ s.cursorIndex < (s.projects.length : Int) then
      match getAt s.projects s.cursorIndex with
      | some project =>
        ({ s with selected := toggleSel s.selected project.value }, none)
      | none => (s, none)
    else (s, none)
  -- Ctrl+A: invert the selection across the whole displayed list
  else if data = ['\x01'] then
    ({ s with selected := s.projects.foldl (fun sel p => toggleSel sel p.value) s.selected }, none)
  -- backspace: pop one search character and re-filter
  else if data = ['\x7f'] ∨ data = ['\x08'] then
    if s.searchQuery.length > 0 then
      (applySearchFilter cfg { s with searchQuery := s.searchQuery.dropLast }, none)
    else (s, none)
  -- printable character: extend the search query and re-filter
  -- (`data.length === 1 && 32 <= charCodeAt(0) && charCodeAt(0) <= 126`)
  else if isPrintableChunk data ∧ s.escapeSequence = [] then
    (applySearchFilter cfg { s with searchQuery := s.searchQuery ++ data }, none)
  -- trailing escape-sequence reset
  else if s.escapeSequence.length > 0 ∧ startsW s.escapeSequence ['\x1b'] = false then
    ({ s with escapeSequence := [] }, none)
  else (s, none)

/-- `handleData` from `promptProjectsWithDynamicUpdates`
(lines 1262-1684 of `prompts.ts`): one raw stdin chunk. -/
def handleData (cfg : Config) (s : CtrlState) (data : Str) :
    CtrlState × Option Resolution :=
  let fd := s.escapeSequence ++ data
  match escBlock cfg s fd with
  | .ret out => out
  | .cont s1 => afterEsc cfg s1 data fd

/-- An externally observable event of one controller invocation: a raw input
chunk, or an invocation of the registered background-update callback. -/
inductive Event where
  | input (data : Str)
  | update (newProjects : List ProjectOption)

/-- One event step; once the promise has resolved the data listener has been
removed, so further events are ignored. -/
def stepEvent (cfg : Config) (st : CtrlState × Option Resolution) (e : Event) :
    CtrlState × Option Resolution :=
  match st.2 with
  | some _ => st
  | none =>
    match e with
    | .input d => handleData cfg st.1 d
    | .update ps => (updateProjects cfg st.1 ps, none)

/-- Run a sequence of events from the initial state. -/
def runEvents (cfg : Config) (evs : List Event) : CtrlState × Option Resolution :=
  evs.foldl (stepEvent cfg) (initState cfg, none)

/-! ## Concrete fixtures for reachable-state counterexamples -/

/-- A project record with no deployment. -/
def mkMeta (i n : String) : ProjectMeta := ⟨i.toList, n.toList, none⟩

/-- The `ProjectOption` the orchestrator builds for a record. -/
def mkOpt (m : ProjectMeta) : ProjectOption := ⟨m.name, m.id, none⟩

/-- Five projects whose names all contain the letter `a`. -/
def metasA : List ProjectMeta :=
  [mkMeta "p0" "a0", mkMeta "p1" "a1", mkMeta "p2" "a2",
   mkMeta "p3" "a3", mkMeta "p4" "a4"]

/-- A controller configuration with page size 3 over `metasA`. -/
def cfgA : Config :=
  { initialProjects := metasA.map mkOpt
    pageSize := 3
    allProjects := metasA
    formatProject := fun p => p.name
    wasRawMode := false
    scopeSlug := some "team".toList
    hasFetchDetailData := false
    cachedDetail := fun _ => none }

/-- The page invariant of the spec:
`pageStart <= cursorIndex < pageStart + pageSize`. -/
def pageInv (pageSize : Int) (s : CtrlState) : Prop :=
  s.startIndex ≤ s.cursorIndex ∧ s.cursorIndex < s.startIndex + pageSize

instance (pageSize : Int) (s : CtrlState) : Decidable (pageInv pageSize s) :=
  inferInstanceAs
    (Decidable (s.startIndex ≤ s.cursorIndex ∧ s.cursorIndex < s.startIndex + pageSize))

/-- Four down-arrow chunks (cursor to index 4, page scrolled to 2), then the
search keystroke `a`, whose filtered list contains the focused project `p4`
at index 4. -/
def evsC1 : List Event :=
  [Event.input "\x1b[B".toList, Event.input "\x1b[B".toList,
   Event.input "\x1b[B".toList, Event.input "\x1b[B".toList,
   Event.input ['a']]

/-- C1 counterexample: a state reachable by four down-arrows followed by the
search keystroke `a` violates the page invariant — `applySearchFilter` resets
`startIndex` to 0 but restores the cursor (by project id) to index 4 with
page size 3. -/
theorem C1_page_invariant_counterexample :
    (runEvents cfgA evsC1).2 = none ∧
    (runEvents cfgA evsC1).1.cursorIndex = 4 ∧
    (runEvents cfgA evsC1).1.startIndex = 0 ∧
    cfgA.pageSize = 3 ∧
    ¬ pageInv cfgA.pageSize (runEvents cfgA evsC1).1 := by
  decide

theorem findIdxJs_lower (l : List ProjectOption) (v : Str) :
    findIdxJs l v = -1 ∨ 0 ≤ findIdxJs l v := by
  induction l with
  | nil => left; rfl
  | cons p rest ih =>
    by_cases h : p.value = v
    · right; simp [findIdxJs, h]
    · rcases ih with h1 | h1 <;> simp [findIdxJs, h, h1] <;> omega

/-- C1 (amended): the page invariant is preserved by background updates
(`updateProjects`, given a positive page size, a non-negative window start and
a non-empty replacement list), but `applySearchFilter` resets `pageStart` to 0
while restoring the cursor by project id, so after a search-filter application
the invariant holds exactly when the restored cursor index lands inside the
first page — when the previously focused id reappears at an index
`≥ pageSize`, the invariant is violated. -/
theorem C1_page_invariant_amended (cfg : Config) (s : CtrlState)
    (ps : List ProjectOption) (hpz : 1 ≤ cfg.pageSize) (hsi : 0 ≤ s.startIndex)
    (hinv : pageInv cfg.pageSize s) (hps : ps ≠ []) :
    pageInv cfg.pageSize (updateProjects cfg s ps) ∧
    (applySearchFilter cfg s).startIndex = 0 ∧
    (pageInv cfg.pageSize (applySearchFilter cfg s) ↔
      0 ≤ (applySearchFilter cfg s).cursorIndex ∧
        (applySearchFilter cfg s).cursorIndex < cfg.pageSize) := by
  refine ⟨?_, ?_, ?_⟩
  · by_cases hq : s.searchQuery ≠ []
    · simpa [updateProjects, hq] using hinv
    · have hci0 : 0 ≤ s.cursorIndex := le_trans hsi hinv.1
      have hlen : 1 ≤ (ps.length : Int) := by
        have := List.length_pos.mpr hps
        omega
      rw [not_ne_iff] at hq
      have hc0 : 0 ≤ updateCursor s ps := by
        unfold updateCursor
        cases jsStr? (currentProjectIdOf s) with
        | none => simp only; omega
        | some pid =>
          simp only
          rcases findIdxJs_lower ps pid with hf | hf <;> split_ifs <;> omega
      simp only [updateProjects, hq, ne_eq, not_true_eq_false, if_false, pageInv,
        updateStart]
      split_ifs <;> constructor <;> omega
  · simp [applySearchFilter]
  · simp only [pageInv, applySearchFilter]
    constructor <;> intro h <;> exact ⟨by omega, by omega⟩

theorem C1_page_invariant_amended_witness :
    pageInv cfgA.pageSize
      (updateProjects cfgA (initState cfgA) [mkOpt (mkMeta "q" "b")]) ∧
    (applySearchFilter cfgA (initState cfgA)).startIndex = 0 ∧
    (pageInv cfgA.pageSize (applySearchFilter cfgA (initState cfgA)) ↔
      0 ≤ (applySearchFilter cfgA (initState cfgA)).cursorIndex ∧
        (applySearchFilter cfgA (initState cfgA)).cursorIndex < cfgA.pageSize) :=
  C1_page_invariant_amended cfgA (initState cfgA) [mkOpt (mkMeta "q" "b")]
    (by decide) (by decide) (by decide) (by decide)

/-- A project named `proj` whose last deployment is in state `READY` with no
creator record. -/
def metaR : ProjectMeta :=
  ⟨"p9".toList, "proj".toList, some ⟨some "READY".toList, none, 0⟩⟩

/-- A configuration whose only record is `metaR`. -/
def cfgR : Config := { cfgA with allProjects := [metaR], initialProjects := [mkOpt metaR] }

/-- The deployment-state keywords enumerated by the claim. -/
def claimStateKeywords : List Str :=
  ["ready".toList, "building".toList, "error".toList, "queued".toList,
   "canceled".toList, "initializing".toList]

/-- The claim's matching rule, written from the claim's words: the trimmed,
lower-cased query is a substring of the name, or a substring of the
last-deployment creator's username (else email, else uid), or — the query
being a deployment-state keyword or "never" — the record's deployment state
matches that keyword exactly (no deployment matching "never"); no other
queries match via the state clause. -/
def claimMatches (query : Str) (p : ProjectMeta) : Bool :=
  let term := trimS (lowerS query)
  let nameMatch := containsSub (lowerS p.name) term
  let creatorMatch :=
    match p.lastDeployment with
    | some d =>
      match d.creator with
      | some c => containsSub (creatorNameOf c) term
      | none => false
    | none => false
  let stateMatch :=
    if term = "never".toList then p.lastDeployment.isNone
    else if claimStateKeywords.contains term then
      match p.lastDeployment with
      | some d => d.state.map lowerS = some term
      | none => false
    else false
  nameMatch || creatorMatch || stateMatch

/-- C2 counterexample: the query "ead" is neither a state keyword nor "never"
nor a substring of the name or creator of `metaR`, so by the claim `metaR`
must not be in the filtered list — but the source's state clause is a
substring test (`state.toLowerCase().includes(searchTerm)`) and the filtered
list contains it. -/
theorem C2_search_rule_counterexample :
    (filterProjects cfgR ("ead".toList)).map (fun o => o.value) = ["p9".toList] ∧
    claimMatches ("ead".toList) metaR = false := by
  decide

/-- The amended search-matching rule, written from the amended claim's words:
the trimmed lower-cased query matches a record when it is a substring of the
lower-cased name, OR a substring of the last-deployment creator's username
(else email, else uid, lower-cased), OR a substring of the lower-cased
deployment state — records with no deployment, or with an absent/empty state,
matching instead when the query is a substring of "never". -/
def specMatches (query : Str) (p : ProjectMeta) : Bool :=
  let term := trimS (lowerS query)
  containsSub (lowerS p.name) term ||
  (match p.lastDeployment.bind (fun d => d.creator) with
   | some c => containsSub (creatorNameOf c) term
   | none => false) ||
  (match p.lastDeployment with
   | some d =>
     match d.state with
     | some st =>
       if st = [] then containsSub ("never".toList) term
       else containsSub (lowerS st) term
     | none => containsSub ("never".toList) term
   | none => containsSub ("never".toList) term)

theorem projectMatches_eq_specMatches (q : Str) (p : ProjectMeta) :
    projectMatches (trimS (lowerS q)) p = specMatches q p := by
  rcases hd : p.lastDeployment with _ | d
  · simp only [projectMatches, specMatches, hd, Option.bind]
    cases containsSub (lowerS p.name) (trimS (lowerS q)) <;>
      cases containsSub ("never".toList) (trimS (lowerS q)) <;> rfl
  · rcases hs : d.state with _ | st
    · rcases hc : d.creator with _ | c <;>
        · simp only [projectMatches, specMatches, hd, hs, jsStr?, hc, Option.bind]
          cases containsSub (lowerS p.name) (trimS (lowerS q)) <;>
            cases containsSub ("never".toList) (trimS (lowerS q)) <;> simp
    · by_cases hst : st = []
      · rcases hc : d.creator with _ | c <;>
          · simp only [projectMatches, specMatches, hd, hs, hst, jsStr?, hc,
              Option.bind, if_pos rfl]
            simp only [if_true]
            cases containsSub (lowerS p.name) (trimS (lowerS q)) <;>
              cases containsSub ("never".toList) (trimS (lowerS q)) <;> simp
      · rcases hc : d.creator with _ | c <;>
          · simp only [projectMatches, specMatches, hd, hs, jsStr?, hc,
              Option.bind, if_neg hst]
            cases containsSub (lowerS p.name) (trimS (lowerS q)) <;>
              cases containsSub (lowerS st) (trimS (lowerS q)) <;> simp

theorem mem_filter_map_id (l : List ProjectMeta) (f : ProjectMeta → Bool)
    (p : ProjectMeta) (hnd : (l.map (fun m => m.id)).Nodup) (hp : p ∈ l) :
    (p.id ∈ (l.filter f).map (fun m => m.id)) ↔ f p = true := by
  induction l with
  | nil => cases hp
  | cons q rest ih =>
    simp only [List.map_cons, List.nodup_cons] at hnd
    rcases List.mem_cons.mp hp with rfl | hp'
    · by_cases hf : f p = true
      · simp [List.filter_cons, hf]
      · rw [List.filter_cons, if_neg hf]
        refine iff_of_false ?_ hf
        intro hmem
        obtain ⟨m, hm, hid⟩ := List.mem_map.mp hmem
        have hpm : p.id ∈ rest.map (fun m => m.id) :=
          hid ▸ List.mem_map_of_mem (fun m => m.id) (List.mem_of_mem_filter hm)
        exact hnd.1 hpm
    · have hqp : q.id ≠ p.id := by
        intro h
        exact hnd.1 (h ▸ List.mem_map_of_mem (fun m => m.id) hp')
      by_cases hf : f q = true
      · rw [List.filter_cons, if_pos hf]
        simp only [List.map_cons, List.mem_cons]
        rw [ih hnd.2 hp']
        constructor
        · rintro (h | h)
          · exact absurd h.symm hqp
          · exact h
        · intro h
          exact Or.inr h
      · rw [List.filter_cons, if_neg hf]
        exact ih hnd.2 hp'

/-- C2 (amended): for a non-empty trimmed query over a non-empty record set
with distinct ids, the filtered list contains a record's id exactly when the
amended rule matches: the trimmed lower-cased query is a substring of the
name, or of the creator's username (else email, else uid), or of the
deployment state — records with a missing deployment or an absent/empty state
matching when the query is a substring of "never". -/
theorem C2_search_rule_amended (cfg : Config) (query : Str) (p : ProjectMeta)
    (hq : trimS query ≠ []) (hall : cfg.allProjects ≠ [])
    (hnd : (cfg.allProjects.map (fun m => m.id)).Nodup)
    (hp : p ∈ cfg.allProjects) :
    p.id ∈ (filterProjects cfg query).map (fun o => o.value) ↔
      specMatches query p = true := by
  have hlen : ¬ (cfg.allProjects.length = 0) := by
    simpa [List.length_eq_zero] using hall
  have hguard : ¬ (trimS query = [] ∨ cfg.allProjects.length = 0) := by
    rintro (h | h)
    · exact hq h
    · exact hlen h
  simp only [filterProjects, hguard, ite_false, List.map_map]
  have hmapeq :
      ((fun o => o.value) ∘ fun project =>
          ({ name := cfg.formatProject project, value := project.id,
             description := some project.name } : ProjectOption)) =
        fun m => m.id := rfl
  rw [hmapeq, mem_filter_map_id cfg.allProjects _ p hnd hp,
    projectMatches_eq_specMatches]

theorem C2_search_rule_amended_witness :
    metaR.id ∈ (filterProjects cfgR ("read".toList)).map (fun o => o.value) ↔
      specMatches ("read".toList) metaR = true :=
  C2_search_rule_amended cfgR ("read".toList) metaR
    (by decide) (by decide) (by decide) (by decide)

/-- Enter the detail view, advance the action index twice with tab, then send
shift-tab (`ESC [ Z`) as one chunk. -/
def evsC3 : List Event :=
  [Event.input "\x1b[C".toList, Event.input ['\x09'], Event.input ['\x09'],
   Event.input "\x1b[Z".toList]

/-- The same with the shift-tab bytes split across three chunks. -/
def evsC3split : List Event :=
  [Event.input "\x1b[C".toList, Event.input ['\x09'], Event.input ['\x09'],
   Event.input ['\x1b'], Event.input ['['], Event.input ['Z']]

/-- C3: shift-tab in the detail view is dead code.  From the reachable DETAIL
state with `detailActionIndex = 2`, the one-chunk `ESC [ Z` input leaves the
index at 2 (the "ignore other arrow keys in menus/detail view" branch returns
first, so the dedicated shift-tab handler is unreachable); the claim and the
source's own `SHIFT+TAB` comment call for `(2 - 1 + 4) % 4 = 1`.  The
split-chunk arrival is ignored as well. -/
theorem C3_shift_tab_ignored :
    (runEvents cfgA evsC3).1.isDetailViewActive = true ∧
    (runEvents cfgA evsC3).1.detailViewActionIndex = 2 ∧
    (runEvents cfgA evsC3).2 = none ∧
    (runEvents cfgA evsC3split).1.detailViewActionIndex = 2 ∧
    ((2 - 1 + 4) % 4 : Int) = 1 := by
  decide

/-- C4: while a search filter is active (`searchQuery` non-empty), invoking
the registered update callback leaves the whole controller state — items,
cursor, page window, selection and baseline — unchanged. -/
theorem C4_update_suppressed (cfg : Config) (s : CtrlState)
    (ps : List ProjectOption) (h : s.searchQuery ≠ []) :
    updateProjects cfg s ps = s := by
  simp [updateProjects, h]

theorem C4_update_suppressed_witness :
    updateProjects cfgA { initState cfgA with searchQuery := ['x'] }
        [mkOpt metaR] =
      { initState cfgA with searchQuery := ['x'] } :=
  C4_update_suppressed cfgA { initState cfgA with searchQuery := ['x'] }
    [mkOpt metaR] (by decide)

/-- Enter the detail view, then send a single chunk holding only the lone
escape byte. -/
def evsC6 : List Event :=
  [Event.input "\x1b[C".toList, Event.input ['\x1b']]

/-- C6 counterexample: a single ESC key press delivered as one chunk holding
only the byte 0x1b does NOT leave the detail view — the reassembly logic
buffers it as a potential escape-sequence start and returns, so the state
remains DETAIL with the project id still set. -/
theorem C6_escape_detail_counterexample :
    (runEvents cfgA evsC6).2 = none ∧
    (runEvents cfgA evsC6).1.isDetailViewActive = true ∧
    (runEvents cfgA evsC6).1.detailViewProjectId = some ("p0".toList) ∧
    (runEvents cfgA evsC6).1.escapeSequence = ['\x1b'] := by
  decide

/-- C6 (amended): from any detail-view state with an empty reassembly buffer,
the first lone-ESC chunk is only buffered (state otherwise unchanged), and a
second lone-ESC chunk returns the view to LIST with `detailViewProjectId`
cleared and `detailViewActionIndex` reset to 0, for every prior action
index. -/
theorem C6_escape_detail_amended (cfg : Config) (s : CtrlState)
    (hd : s.isDetailViewActive = true) (hs : s.isSettingsMenuActive = false)
    (hesc : s.escapeSequence = []) :
    handleData cfg s ['\x1b'] = ({ s with escapeSequence := ['\x1b'] }, none) ∧
    (handleData cfg { s with escapeSequence := ['\x1b'] } ['\x1b']).1 =
      exitDetail { s with escapeSequence := [] } ∧
    (handleData cfg { s with escapeSequence := ['\x1b'] } ['\x1b']).1.isDetailViewActive
      = false ∧
    (handleData cfg { s with escapeSequence := ['\x1b'] } ['\x1b']).1.detailViewProjectId
      = none ∧
    (handleData cfg { s with escapeSequence := ['\x1b'] } ['\x1b']).1.detailViewActionIndex
      = 0 ∧
    (handleData cfg { s with escapeSequence := ['\x1b'] } ['\x1b']).2 = none := by
  refine ⟨?_, ?_, ?_, ?_, ?_, ?_⟩ <;>
    simp [handleData, escBlock, afterEsc, exitDetail, hesc, hd, hs,
      bufferEsc, clearEsc]

/-- Invert-all from the initial state over `cfgA` (5 items, page size 3). -/
def evsC8 : List Event := [Event.input ['\x01']]

/-- C8 counterexample: Ctrl+A from the initial state toggles ALL five items
into the selection, although items `p3` and `p4` (indices 3 and 4) lie
outside the visible page (`startIndex = 0`, `pageSize = 3`); the claim says
membership of every item outside the visible page is unchanged. -/
theorem C8_invert_all_counterexample :
    (runEvents cfgA evsC8).1.selected =
      ["p0".toList, "p1".toList, "p2".toList, "p3".toList, "p4".toList] ∧
    (runEvents cfgA evsC8).1.startIndex = 0 ∧
    cfgA.pageSize = 3 ∧
    findIdxJs (runEvents cfgA evsC8).1.projects ("p4".toList) = 4 ∧
    selHas (initState cfgA).selected ("p4".toList) = false ∧
    selHas (runEvents cfgA evsC8).1.selected ("p4".toList) = true := by
  decide


theorem selHas_eq_mem (sel : List Str) (v : Str) : selHas sel v = decide (v ∈ sel) := by
  induction sel with
  | nil => rfl
  | cons a rest ih =>
    simp only [selHas, List.any_cons] at ih ⊢
    rw [ih]
    by_cases h1 : a = v <;> by_cases h2 : v ∈ rest <;>
      simp [h1, h2, List.mem_cons, eq_comm] <;>
      exact fun hh => h1 hh.symm

theorem selHas_toggle_self (sel : List Str) (v : Str) :
    selHas (toggleSel sel v) v = !(selHas sel v) := by
  by_cases h : v ∈ sel <;>
    simp [toggleSel, selHas_eq_mem, List.mem_filter, List.mem_append, h]

theorem selHas_toggle_other (sel : List Str) (v w : Str) (h : w ≠ v) :
    selHas (toggleSel sel v) w = selHas sel w := by
  by_cases hv : v ∈ sel <;>
    simp [toggleSel, selHas_eq_mem, List.mem_filter, List.mem_append, hv, h]

theorem selHas_invertFold (vals : List Str) (sel : List Str) (x : Str)
    (hnd : vals.Nodup) :
    selHas (vals.foldl toggleSel sel) x =
      (if x ∈ vals then !(selHas sel x) else selHas sel x) := by
  induction vals generalizing sel with
  | nil => simp
  | cons v rest ih =>
    have hnd' := List.nodup_cons.mp hnd
    simp only [List.foldl_cons]
    by_cases hx : x = v
    · subst hx
      rw [ih (toggleSel sel x) hnd'.2]
      simp [hnd'.1, selHas_toggle_self]
    · rw [ih (toggleSel sel v) hnd'.2, selHas_toggle_other sel v x hx]
      simp [List.mem_cons, hx]
/-- C8 (amended): in the list view with an empty reassembly buffer, Ctrl+A
toggles the selection membership of EVERY item of the current (possibly
filtered) item list — all pages, not only the visible window — leaving every
id outside the list untouched, and changes no other controller state. -/
theorem C8_invert_all_amended (cfg : Config) (s : CtrlState) (x : Str)
    (hd : s.isDetailViewActive = false) (hst : s.isSettingsMenuActive = false)
    (hesc : s.escapeSequence = [])
    (hnd : (s.projects.map (fun p => p.value)).Nodup) :
    (handleData cfg s ['\x01']).2 = none ∧
    selHas (handleData cfg s ['\x01']).1.selected x =
      (if x ∈ s.projects.map (fun p => p.value) then !(selHas s.selected x)
       else selHas s.selected x) ∧
    (handleData cfg s ['\x01']).1.projects = s.projects ∧
    (handleData cfg s ['\x01']).1.cursorIndex = s.cursorIndex ∧
    (handleData cfg s ['\x01']).1.startIndex = s.startIndex := by
  have hstep : handleData cfg s ['\x01'] =
      ({ s with selected :=
          s.projects.foldl (fun sel p => toggleSel sel p.value) s.selected }, none) := by
    simp [handleData, escBlock, afterEsc, hesc, hd, hst, clearEsc, bufferEsc]
  rw [hstep]
  refine ⟨rfl, ?_, rfl, rfl, rfl⟩
  have hfold : s.projects.foldl (fun sel p => toggleSel sel p.value) s.selected =
      (s.projects.map (fun p => p.value)).foldl toggleSel s.selected :=
    (List.foldl_map (fun p => p.value) toggleSel s.projects s.selected).symm
  simp only [hfold]
  exact selHas_invertFold (s.projects.map (fun p => p.value)) s.selected x hnd

/-- Three projects `A`, `B`, `C` (the claim's scenario list). -/
def metasB : List ProjectMeta := [mkMeta "A" "alpha", mkMeta "B" "beta", mkMeta "C" "gamma"]

/-- Page size 3 over `metasB`, so the whole list is visible. -/
def cfgB : Config :=
  { cfgA with allProjects := metasB, initialProjects := metasB.map mkOpt }

/-- The claim's scenario state: selection = {A, B} over the 3-item list. -/
def sC8 : CtrlState := { initState cfgB with selected := ["A".toList, "B".toList] }

theorem C8_invert_all_amended_witness :
    (handleData cfgB sC8 ['\x01']).2 = none ∧
    selHas (handleData cfgB sC8 ['\x01']).1.selected ("C".toList) =
      (if "C".toList ∈ sC8.projects.map (fun p => p.value)
       then !(selHas sC8.selected ("C".toList))
       else selHas sC8.selected ("C".toList)) ∧
    (handleData cfgB sC8 ['\x01']).1.projects = sC8.projects ∧
    (handleData cfgB sC8 ['\x01']).1.cursorIndex = sC8.cursorIndex ∧
    (handleData cfgB sC8 ['\x01']).1.startIndex = sC8.startIndex :=
  C8_invert_all_amended cfgB sC8 ("C".toList)
    (by decide) (by decide) (by decide) (by decide)

/-- A buffered incomplete Home/End prefix (`ESC [ 1` as one chunk), then the
interrupt byte. -/
def evsC9 : List Event :=
  [Event.input "\x1b[1".toList, Event.input ['\x03']]

/-- C9 counterexample: with the reassembly buffer holding the incomplete
escape sequence `ESC [ 1` (a reachable LIST-view state), the interrupt byte
0x03 is absorbed into the buffer by the sequence-reassembly logic and the
invocation does NOT resolve. -/
theorem C9_interrupt_counterexample :
    (runEvents cfgA [Event.input "\x1b[1".toList]).1.escapeSequence =
      "\x1b[1".toList ∧
    (runEvents cfgA evsC9).2 = none ∧
    (runEvents cfgA evsC9).1.escapeSequence = "\x1b[1\x03".toList := by
  decide

/-- C9 (amended): whenever the escape-sequence reassembly buffer is empty,
the interrupt byte 0x03 resolves the invocation with `{selectedIds: [],
action: none}` in every view (LIST, DETAIL or SETTINGS, any selection, any
search query), and the exit path sets the raw mode back to its prior value
(`setRawMode(wasRawMode || false)`). -/
theorem C9_interrupt_amended (cfg : Config) (s : CtrlState)
    (hesc : s.escapeSequence = []) :
    handleData cfg s ['\x03'] =
      (s, some ⟨[], ActionKind.noAction, cfg.wasRawMode⟩) := by
  simp [handleData, escBlock, afterEsc, hesc, clearEsc, bufferEsc]

theorem C9_interrupt_amended_witness :
    handleData cfgA
        { initState cfgA with isDetailViewActive := true,
                              selected := ["p0".toList], searchQuery := ['a'] }
        ['\x03'] =
      ({ initState cfgA with isDetailViewActive := true,
                             selected := ["p0".toList], searchQuery := ['a'] },
       some ⟨[], ActionKind.noAction, cfgA.wasRawMode⟩) :=
  C9_interrupt_amended cfgA
    { initState cfgA with isDetailViewActive := true,
                          selected := ["p0".toList], searchQuery := ['a'] }
    (by decide)

theorem enterDetail_selected (cfg : Config) (s : CtrlState) :
    (enterDetail cfg s).selected = s.selected := by
  unfold enterDetail
  split
  · split
    · rename_i proj heq
      cases hc : cfg.cachedDetail proj.value with
      | some dc =>
        obtain ⟨doms, cm⟩ := dc
        simp [hc]
      | none => by_cases hf : cfg.hasFetchDetailData <;> simp [hc, hf]
    · rfl
  · rfl

/-- The selection component of an `escBlock` outcome. -/
def escOutSel : EscOut → List Str
  | .ret out => out.1.selected
  | .cont s1 => s1.selected

theorem escOutSel_ret (out : CtrlState × Option Resolution) :
    escOutSel (.ret out) = out.1.selected := rfl

theorem escOutSel_cont (s1 : CtrlState) : escOutSel (.cont s1) = s1.selected := rfl

theorem clearEsc_selected (s : CtrlState) : (clearEsc s).selected = s.selected := rfl

theorem bufferEsc_selected (s : CtrlState) (fd : Str) :
    (bufferEsc s fd).selected = s.selected := rfl

theorem leftArrowEffect_selected (cfg : Config) (s : CtrlState) :
    (leftArrowEffect cfg s).selected = s.selected := by
  unfold leftArrowEffect
  split_ifs <;> rfl

theorem homeKeyEffect_selected (cfg : Config) (s : CtrlState) :
    (homeKeyEffect cfg s).selected = s.selected := rfl

theorem endKeyEffect_selected (cfg : Config) (s : CtrlState) :
    (endKeyEffect cfg s).selected = s.selected := rfl

theorem upArrowEffect_selected (cfg : Config) (s : CtrlState) :
    (upArrowEffect cfg s).selected = s.selected := rfl

theorem downArrowEffect_selected (cfg : Config) (s : CtrlState) :
    (downArrowEffect cfg s).selected = s.selected := rfl

theorem escBlock_selected (cfg : Config) (s : CtrlState) (fd : Str) :
    escOutSel (escBlock cfg s fd) = s.selected := by
  unfold escBlock
  by_cases h1 : (fd.length ≥ 3 ∧ fd.get? 0 = some '\x1b' ∧ fd.get? 1 = some '[')
  · rw [if_pos h1]
    by_cases h2 : fd.get? 2 = some 'D'
    · rw [if_pos h2, escOutSel_ret]
      exact (leftArrowEffect_selected cfg (clearEsc s)).trans (clearEsc_selected s)
    · rw [if_neg h2]
      by_cases h3 : fd.get? 2 = some 'C'
      · rw [if_pos h3, escOutSel_ret]
        exact (enterDetail_selected cfg (clearEsc s)).trans (clearEsc_selected s)
      · rw [if_neg h3]
        by_cases h4 : (s.isDetailViewActive = true ∨ s.isSettingsMenuActive = true)
        · rw [if_pos h4, escOutSel_ret]
          exact clearEsc_selected s
        · rw [if_neg h4]
          by_cases h5 : ((fd.length ≥ 3 ∧ fd.get? 2 = some 'H') ∨
              (fd.length ≥ 5 ∧ fd.get? 2 = some '1' ∧ fd.get? 3 = some '~'))
          · rw [if_pos h5, escOutSel_ret]
            exact (homeKeyEffect_selected cfg (clearEsc s)).trans (clearEsc_selected s)
          · rw [if_neg h5]
            by_cases h6 : ((fd.length ≥ 3 ∧ fd.get? 2 = some 'F') ∨
                (fd.length ≥ 5 ∧ fd.get? 2 = some '4' ∧ fd.get? 3 = some '~'))
            · rw [if_pos h6, escOutSel_ret]
              exact (endKeyEffect_selected cfg (clearEsc s)).trans (clearEsc_selected s)
            · rw [if_neg h6]
              by_cases h7 : (fd.length ≥ 3 ∧ fd.get? 2 = some 'A')
              · rw [if_pos h7, escOutSel_ret]
                exact (upArrowEffect_selected cfg (clearEsc s)).trans (clearEsc_selected s)
              · rw [if_neg h7]
                by_cases h8 : (fd.length ≥ 3 ∧ fd.get? 2 = some 'B')
                · rw [if_pos h8, escOutSel_ret]
                  exact (downArrowEffect_selected cfg (clearEsc s)).trans (clearEsc_selected s)
                · rw [if_neg h8]
                  by_cases h9 : fd.length = 2
                  · rw [if_pos h9, escOutSel_ret]
                    exact bufferEsc_selected s fd
                  · rw [if_neg h9]
                    by_cases h10 : (fd.length ≥ 3 ∧ fd.length < 5)
                    · rw [if_pos h10]
                      by_cases h11 : (fd.get? 2 = some '1' ∨ fd.get? 2 = some '4')
                      · rw [if_pos h11, escOutSel_ret]
                        exact bufferEsc_selected s fd
                      · rw [if_neg h11, escOutSel_cont]
                        exact clearEsc_selected s
                    · rw [if_neg h10, escOutSel_cont]
                      exact clearEsc_selected s
  · rw [if_neg h1]
    by_cases h12 : (fd.length = 1 ∧ fd.get? 0 = some '\x1b')
    · rw [if_pos h12, escOutSel_ret]
      exact bufferEsc_selected s fd
    · rw [if_neg h12]
      by_cases h13 : s.escapeSequence.length > 0
      · rw [if_pos h13, escOutSel_cont]
        exact clearEsc_selected s
      · rw [if_neg h13, escOutSel_cont]

theorem afterEsc_selected (cfg : Config) (s : CtrlState) (data fd : Str)
    (h1 : data ≠ ['\x0d']) (h2 : data ≠ ['\x0a']) (h3 : data ≠ ['\x01']) :
    (afterEsc cfg s data fd).1.selected = s.selected := by
  unfold afterEsc
  by_cases a1 : data = ['\x03']
  · rw [if_pos a1]
    try rfl
  · rw [if_neg a1]
    try rfl
    by_cases a2 : s.isSettingsMenuActive = true
    · rw [if_pos a2]
      try rfl
      by_cases b1 : data = ['\x1b']
      · rw [if_pos b1]
        try rfl
      · rw [if_neg b1]
        try rfl
        by_cases b2 : data = ['1']
        · rw [if_pos b2]
          try rfl
        · rw [if_neg b2]
          try rfl
    · rw [if_neg a2]
      try rfl
      by_cases a3 : (data = ['\x12'] ∧ s.isDetailViewActive = false ∧
          s.isSettingsMenuActive = false)
      · rw [if_pos a3]
        try rfl
      · rw [if_neg a3]
        try rfl
        by_cases a4 : (data = ['\x13'] ∧ s.isDetailViewActive = false)
        · rw [if_pos a4]
          try rfl
        · rw [if_neg a4]
          try rfl
          by_cases a5 : (data = ['\x1b'] ∧ s.escapeSequence = [] ∧
              s.isDetailViewActive = true)
          · rw [if_pos a5]
            try rfl
          · rw [if_neg a5]
            try rfl
            by_cases a6 : (data = ['\x1b'] ∧ s.escapeSequence = [] ∧
                s.isSettingsMenuActive = false ∧ s.searchQuery ≠ [])
            · rw [if_pos a6]
              try rfl
            · rw [if_neg a6]
              try rfl
              by_cases a7 : (data = ['\x04'] ∧ s.selected ≠ [])
              · rw [if_pos a7]
                try rfl
              · rw [if_neg a7]
                try rfl
                by_cases a8 : s.isDetailViewActive = true
                · rw [if_pos a8]
                  try rfl
                  by_cases c1 : (data = ['\x1b'] ∧ s.escapeSequence = [])
                  · rw [if_pos c1]
                    try rfl
                  · rw [if_neg c1]
                    try rfl
                    by_cases c2 : data = ['\x09']
                    · rw [if_pos c2]
                      try rfl
                    · rw [if_neg c2]
                      try rfl
                      by_cases c3 : fd = ['\x1b', '[', 'Z']
                      · rw [if_pos c3]
                        try rfl
                      · rw [if_neg c3]
                        try rfl
                        by_cases c4 : (data = ['\x0d'] ∨ data = ['\x0a'])
                        · rw [if_pos c4]
                          try rfl
                        · rw [if_neg c4]
                          try rfl
                · rw [if_neg a8]
                  try rfl
                  have a9 : ¬ (data = ['\x0d'] ∨ data = ['\x0a']) := by
                    rintro (h | h)
                    exacts [h1 h, h2 h]
                  rw [if_neg a9, if_neg h3]
                  by_cases a11 : (data = ['\x7f'] ∨ data = ['\x08'])
                  · rw [if_pos a11]
                    try rfl
                    by_cases d1 : s.searchQuery.length > 0
                    · rw [if_pos d1]
                      try rfl
                    · rw [if_neg d1]
                      try rfl
                  · rw [if_neg a11]
                    try rfl
                    by_cases a12 : (isPrintableChunk data = true ∧ s.escapeSequence = [])
                    · rw [if_pos a12]
                      try rfl
                    · rw [if_neg a12]
                      try rfl
                      by_cases a13 : (s.escapeSequence.length > 0 ∧
                          startsW s.escapeSequence ['\x1b'] = false)
                      · rw [if_pos a13]
                        try rfl
                      · rw [if_neg a13]
                        try rfl

/-- C10: the selection set is never modified by search-query edits,
filter clears, background updates, or any other input that is not one of the
user's toggle operations (enter toggles the cursor item, Ctrl+A inverts), so
selection membership is exactly the fold of the user's toggles; and Ctrl+D
resolves with precisely the selected ids — the whole selection set, including
ids the active search filter currently hides from display. -/
theorem C10_selection_frame (cfg : Config) (s : CtrlState)
    (ps : List ProjectOption) (data : Str)
    (h1 : data ≠ ['\x0d']) (h2 : data ≠ ['\x0a']) (h3 : data ≠ ['\x01']) :
    (handleData cfg s data).1.selected = s.selected ∧
    (updateProjects cfg s ps).selected = s.selected ∧
    (applySearchFilter cfg s).selected = s.selected ∧
    (s.selected ≠ [] → s.escapeSequence = [] → s.isSettingsMenuActive = false →
      handleData cfg s ['\x04'] =
        (s, some ⟨s.selected, ActionKind.deleteAct, cfg.wasRawMode⟩)) := by
  refine ⟨?_, ?_, rfl, ?_⟩
  · unfold handleData
    show (match escBlock cfg s (s.escapeSequence ++ data) with
        | EscOut.ret out => out
        | EscOut.cont s1 =>
          afterEsc cfg s1 data (s.escapeSequence ++ data)).1.selected = s.selected
    cases hE : escBlock cfg s (s.escapeSequence ++ data) with
    | ret out =>
      have h := escBlock_selected cfg s (s.escapeSequence ++ data)
      rw [hE, escOutSel_ret] at h
      exact h
    | cont s1 =>
      have h := escBlock_selected cfg s (s.escapeSequence ++ data)
      rw [hE, escOutSel_cont] at h
      exact (afterEsc_selected cfg s1 data (s.escapeSequence ++ data) h1 h2 h3).trans h
  · by_cases hq : s.searchQuery ≠ []
    · simp [updateProjects, hq]
    · rw [not_ne_iff] at hq
      simp [updateProjects, hq]
  · intro hsel hesc hset
    simp [handleData, escBlock, afterEsc, hesc, hset, hsel, clearEsc, bufferEsc]

/-- A state whose selection holds an id (`p9`) hidden by the active search
filter `a`. -/
def sC10 : CtrlState :=
  { initState cfgA with selected := ["p9".toList], searchQuery := ['a'] }

theorem C10_selection_frame_witness :
    (handleData cfgA sC10 ['z']).1.selected = sC10.selected ∧
    (updateProjects cfgA sC10 [mkOpt metaR]).selected = sC10.selected ∧
    (applySearchFilter cfgA sC10).selected = sC10.selected ∧
    handleData cfgA sC10 ['\x04'] =
      (sC10, some ⟨sC10.selected, ActionKind.deleteAct, cfgA.wasRawMode⟩) := by
  have h := C10_selection_frame cfgA sC10 [mkOpt metaR] ['z']
    (by decide) (by decide) (by decide)
  exact ⟨h.1, h.2.1, h.2.2.1, h.2.2.2 (by decide) (by decide) (by decide)⟩

/-- A detail-view state with a non-zero action index. -/
def sC6 : CtrlState :=
  { initState cfgA with isDetailViewActive := true,
                        detailViewProjectId := some ("p0".toList),
                        detailViewActionIndex := 3 }

theorem C6_escape_detail_amended_witness :
    handleData cfgA sC6 ['\x1b'] = ({ sC6 with escapeSequence := ['\x1b'] }, none) ∧
    (handleData cfgA { sC6 with escapeSequence := ['\x1b'] } ['\x1b']).1 =
      exitDetail { sC6 with escapeSequence := [] } ∧
    (handleData cfgA { sC6 with escapeSequence := ['\x1b'] } ['\x1b']).1.isDetailViewActive
      = false ∧
    (handleData cfgA { sC6 with escapeSequence := ['\x1b'] } ['\x1b']).1.detailViewProjectId
      = none ∧
    (handleData cfgA { sC6 with escapeSequence := ['\x1b'] } ['\x1b']).1.detailViewActionIndex
      = 0 ∧
    (handleData cfgA { sC6 with escapeSequence := ['\x1b'] } ['\x1b']).2 = none :=
  C6_escape_detail_amended cfgA sC6 (by decide) (by decide) (by decide)
